import Mathlib

/-!
Verification development for the rpcserver core (src/rpcserver/rpcserver.c).

The embedding models the per-connection dispatcher (handle_client), the
command handlers, and the wire encoding.  A socket is modelled as the list
of bytes the peer will send (`List Nat`, each element one byte); a blocking
`recvall` that cannot be satisfied corresponds to the stream running out,
which is how a short read / peer close appears to the server.  Writes to
the socket always succeed and are collected as an output byte list.
Process memory is a total map from addresses to bytes.  Host effects the
server cannot observe deterministically (posix_spawn, waitpid, dlopen,
dlsym, dlclose, the called function of CMD_CALL, the pty/select schedule)
are supplied as oracle parameters in an environment record, exactly at the
call sites where the C code invokes them.

Unless noted otherwise the definitions model the non-Apple build of the
source (the `#else` branches); Apple-only branches that a claim needs are
given separate, suffixed definitions.
-/

namespace ZShell

/-- `MAGIC` from rpcserver.c: frame magic 0x12345678. -/
def MAGIC : Nat := 0x12345678

/-- `SERVER_MAGIC_VERSION` from rpcserver.c: handshake magic 0x88888800. -/
def SERVER_MAGIC_VERSION : Nat := 0x88888800

/-- `INVALID_PID` from rpcserver.c. -/
def INVALID_PID : Nat := 0xffffffff

/- cmd_type_t enumeration from rpcserver.c. -/

def CMD_EXEC : Nat := 0
def CMD_DLOPEN : Nat := 1
def CMD_DLCLOSE : Nat := 2
def CMD_DLSYM : Nat := 3
def CMD_CALL : Nat := 4
def CMD_PEEK : Nat := 5
def CMD_POKE : Nat := 6
def CMD_REPLY_ERROR : Nat := 7
def CMD_REPLY_PEEK : Nat := 8
def CMD_GET_DUMMY_BLOCK : Nat := 9
def CMD_CLOSE : Nat := 10
def CMD_REPLY_POKE : Nat := 11

/-- cmd_exec_chunk_type_t: STDOUT chunk tag. -/
def CHUNK_STDOUT : Nat := 0

/-- cmd_exec_chunk_type_t: EXITCODE chunk tag. -/
def CHUNK_EXITCODE : Nat := 1

/-- Little-endian encoding of `n` into exactly `w` bytes (truncating, as a
C store of an integer into a `w`-byte field does). -/
def leEncode : Nat → Nat → List Nat
  | 0, _ => []
  | w + 1, n => n % 256 :: leEncode w (n / 256)

/-- Little-endian decoding of a byte list. -/
def leDecode : List Nat → Nat
  | [] => 0
  | b :: bs => b + 256 * leDecode bs

/-- Modelled from the spec: `recvall(sock, buf, n)` of common.h (the
byte-transfer primitive, whose source is not in this tree) "loops until
the requested byte count is transferred or an error occurs".  On our
stream model it succeeds iff the stream still holds `n` bytes; on failure
every byte that did arrive has already been received into the destination
buffer by the loop before the failure is reported, so the remaining
stream is empty. -/
def recvExact (n : Nat) (s : List Nat) : Option (List Nat) × List Nat :=
  if n ≤ s.length then (some (s.take n), s.drop n) else (none, [])

/-- Process memory: a total byte map over addresses. -/
def Mem : Type := Nat → Nat

/-- Store a byte list into memory starting at `addr` (ascending addresses,
as `recv`/`memcpy` into `(char *)addr` does). -/
def writeMem : Mem → Nat → List Nat → Mem
  | m, _, [] => m
  | m, addr, b :: bs => writeMem (fun a => if a = addr then b else m a) (addr + 1) bs

/-- Read `n` bytes of memory starting at `addr`. -/
def readMem (m : Mem) (addr n : Nat) : List Nat :=
  (List.range n).map fun i => m (addr + i)

/-- A protocol_message_t on the wire: magic then cmd_type, both
little-endian u32.  Used both for client frames and for `send_reply`. -/
def frameHdr (t : Nat) : List Nat := leEncode 4 MAGIC ++ leEncode 4 t

/-- A cmd_exec_chunk_t STDOUT chunk as handle_exec emits it: type, size,
then the payload bytes just read from the pty master. -/
def stdoutChunk (bs : List Nat) : List Nat :=
  leEncode 4 CHUNK_STDOUT ++ leEncode 4 bs.length ++ bs

/-- The final cmd_exec_chunk_t EXITCODE chunk: type, size = 4, then the
32-bit waitpid status. -/
def exitChunk (status : Nat) : List Nat :=
  leEncode 4 CHUNK_EXITCODE ++ leEncode 4 4 ++ leEncode 4 status

/-- One wake-up of the interactive-exec select loop.  `master bs` is a read
from the pty master that returned the bytes `bs` (`[]` models a return of
0 or an error, i.e. EOF).  `sock k` is a readable socket for which `recv`
returns up to `k` of the stream's bytes (0 available = client closed). -/
inductive PumpEv
  | master (bs : List Nat)
  | sock (k : Nat)

structure PumpRes where
  out : List Nat
  rest : List Nat
  ended : Bool

/-- The interactive full-duplex pump of handle_exec, driven by a schedule
of select wake-ups.  `status` is the waitpid status used for the final
EXITCODE chunk once the loop breaks.  If the schedule runs out before an
EOF event the pump is still blocked in select (`ended = false`). -/
def pump (status : Nat) : List PumpEv → List Nat → PumpRes
  | [], s => ⟨[], s, false⟩
  | .master bs :: evs, s =>
    if bs = [] then ⟨exitChunk status, s, true⟩
    else
      let r := pump status evs s
      ⟨stdoutChunk bs ++ r.out, r.rest, r.ended⟩
  | .sock k :: evs, s =>
    if min k s.length = 0 then ⟨exitChunk status, s, true⟩
    else pump status evs (s.drop (min k s.length))

inductive HStat
  | ok
  | fail
  | stuck
deriving DecidableEq

/-- Result of a command handler: success flag, bytes written to the
socket, remaining input stream, resulting memory. -/
structure HRes where
  stat : HStat
  out : List Nat
  rest : List Nat
  mem : Mem

/-- Result of handle_exec; `child` records the final value of its `pid`
variable (`none` when it is still INVALID_PID, i.e. no child exists). -/
structure ERes where
  stat : HStat
  out : List Nat
  rest : List Nat
  child : Option Nat

/-- Oracles for the host effects of one dispatcher iteration. -/
structure Env where
  /-- what posix_spawnp would produce: `none` = spawn call failed,
  `some p` = it reported child pid `p`. -/
  spawnRaw : Option Nat
  /-- select/read schedule of the interactive pump. -/
  pumpEvs : List PumpEv
  /-- waitpid status, as a function of the pid being reaped. -/
  wait : Nat → Nat
  /-- dlopen result for the received 1028-byte payload. -/
  dlopenO : List Nat → Nat
  /-- dlsym result for the received 1032-byte payload. -/
  dlsymO : List Nat → Nat
  /-- dlclose result for the received handle. -/
  dlcloseO : Nat → Nat
  /-- result (u64 bit pattern of the s64) of calling the function at the
  given address with the given argument words. -/
  callO : Nat → List Nat → Nat

/-- `internal_spawn` from rpcserver.c, reduced to what the caller can see:
on any CHECK failure it returns false with `*pid` reset to INVALID_PID;
on success it has CHECKed that the spawned pid is not INVALID_PID. -/
def internal_spawn : Option Nat → Bool × Nat
  | none => (false, INVALID_PID)
  | some p => if p = INVALID_PID then (false, INVALID_PID) else (true, p)

/-- The 4-byte spawn-failure sentinel pid reply. -/
def sentinel : List Nat := leEncode 4 INVALID_PID

/-- The argv/envp loops of handle_exec: `n` times, read a u32 length then
that many string bytes.  Returns the strings and the remaining stream, or
`none` at the first short read (stream then fully consumed, see
`recvExact`). -/
def readStrs : Nat → List Nat → Option (List (List Nat)) × List Nat
  | 0, s => (some [], s)
  | n + 1, s =>
    match recvExact 4 s with
    | (none, r) => (none, r)
    | (some lenB, s1) =>
      match recvExact (leDecode lenB) s1 with
      | (none, r) => (none, r)
      | (some str, s2) =>
        match readStrs n s2 with
        | (none, r) => (none, r)
        | (some strs, s3) => (some (str :: strs), s3)

/-- The payload-read prolog of handle_exec: background byte, argc (CHECKed
greater than 0), argc strings, envc, envc strings.  Returns the background
byte's value and the stream after the payload, or `none` at the first
failed CHECK (second component then being the stream at that point). -/
def execParse (s : List Nat) : Option Nat × List Nat :=
  match recvExact 1 s with
  | (none, r) => (none, r)
  | (some bgB, s1) =>
    match recvExact 4 s1 with
    | (none, r) => (none, r)
    | (some argcB, s2) =>
      if leDecode argcB = 0 then (none, s2)
      else
        match readStrs (leDecode argcB) s2 with
        | (none, r) => (none, r)
        | (some _argv, s3) =>
          match recvExact 4 s3 with
          | (none, r) => (none, r)
          | (some envcB, s4) =>
            match readStrs (leDecode envcB) s4 with
            | (none, r) => (none, r)
            | (some _envp, s5) => (some (leDecode bgB), s5)

/-- `handle_exec` from rpcserver.c.  Reads the payload (`execParse`),
spawns, sends the u32 pid; then either starts the background reaper
thread or runs the interactive pump and sends the EXITCODE chunk.  On any
failure while `pid == INVALID_PID` the error path sends the 4-byte
sentinel. -/
def handle_exec (env : Env) (s : List Nat) : ERes :=
  match execParse s with
  | (none, r) => ⟨.fail, sentinel, r, none⟩
  | (some bg, s5) =>
    match internal_spawn env.spawnRaw with
    | (false, _) => ⟨.fail, sentinel, s5, none⟩
    | (true, pid) =>
      if bg ≠ 0 then
        ⟨.ok, leEncode 4 pid, s5, some pid⟩
      else
        let r := pump (env.wait pid) env.pumpEvs s5
        if r.ended then ⟨.ok, leEncode 4 pid ++ r.out, r.rest, some pid⟩
        else ⟨.stuck, leEncode 4 pid ++ r.out, r.rest, some pid⟩

/-- `handle_dlopen`: recv the 1028-byte cmd_dlopen_t, reply the u64
dlopen result. -/
def handle_dlopen (env : Env) (mem : Mem) (s : List Nat) : HRes :=
  match recvExact 1028 s with
  | (none, r) => ⟨.fail, [], r, mem⟩
  | (some payload, s1) => ⟨.ok, leEncode 8 (env.dlopenO payload), s1, mem⟩

/-- `handle_dlclose`: recv the 8-byte cmd_dlclose_t, reply the u64
dlclose result.  (Defined in the source but never dispatched.) -/
def handle_dlclose (env : Env) (mem : Mem) (s : List Nat) : HRes :=
  match recvExact 8 s with
  | (none, r) => ⟨.fail, [], r, mem⟩
  | (some payload, s1) => ⟨.ok, leEncode 8 (env.dlcloseO (leDecode payload)), s1, mem⟩

/-- `handle_dlsym`: recv the 1032-byte cmd_dlsym_t, reply the u64
dlsym result. -/
def handle_dlsym (env : Env) (mem : Mem) (s : List Nat) : HRes :=
  match recvExact 1032 s with
  | (none, r) => ⟨.fail, [], r, mem⟩
  | (some payload, s1) => ⟨.ok, leEncode 8 (env.dlsymO payload), s1, mem⟩

/-- Group a byte list into little-endian 64-bit words, as the `u64 argv[]`
buffer of handle_call holds them. -/
def toWords : List Nat → List Nat
  | b0 :: b1 :: b2 :: b3 :: b4 :: b5 :: b6 :: b7 :: t =>
    leDecode [b0, b1, b2, b3, b4, b5, b6, b7] :: toWords t
  | _ => []

/-- `handle_call`: recv the 16-byte cmd_call_t (address, argc), recv
`argc * 8` argument bytes, switch on argc 0..11 to call the function (the
switch has no default, so other argc leave `err = 0`), reply the 8-byte
result. -/
def handle_call (env : Env) (mem : Mem) (s : List Nat) : HRes :=
  match recvExact 16 s with
  | (none, r) => ⟨.fail, [], r, mem⟩
  | (some hdr, s1) =>
    let address := leDecode (hdr.take 8)
    let argc := leDecode (hdr.drop 8)
    match recvExact (8 * argc) s1 with
    | (none, r) => ⟨.fail, [], r, mem⟩
    | (some args, s2) =>
      let err := if argc ≤ 11 then env.callO address (toWords args) else 0
      ⟨.ok, leEncode 8 err, s2, mem⟩

/-- `handle_peek`, non-Apple branch: recv the 16-byte cmd_peek_t, send a
REPLY_PEEK frame, then stream `size` bytes read from `address`. -/
def handle_peek (mem : Mem) (s : List Nat) : HRes :=
  match recvExact 16 s with
  | (none, r) => ⟨.fail, [], r, mem⟩
  | (some hdr, s1) =>
    let address := leDecode (hdr.take 8)
    let size := leDecode (hdr.drop 8)
    ⟨.ok, frameHdr CMD_REPLY_PEEK ++ readMem mem address size, s1, mem⟩

/-- `handle_poke`, non-Apple branch: recv the 16-byte cmd_poke_t, then
`recvall(sockfd, (char *)cmd.address, cmd.size)` — the payload is received
directly into the target memory, so a short read leaves the bytes that did
arrive already written; after a full read REPLY_POKE is sent. -/
def handle_poke_linux (mem : Mem) (s : List Nat) : HRes :=
  match recvExact 16 s with
  | (none, r) => ⟨.fail, [], r, mem⟩
  | (some hdr, s1) =>
    let address := leDecode (hdr.take 8)
    let size := leDecode (hdr.drop 8)
    if size ≤ s1.length then
      ⟨.ok, frameHdr CMD_REPLY_POKE, s1.drop size, writeMem mem address (s1.take size)⟩
    else
      ⟨.fail, [], [], writeMem mem address s1⟩

/-- `handle_poke`, Apple branch: recv the 16-byte cmd_poke_t, recv `size`
bytes into a malloc'd transient buffer, then vm_write them; REPLY_POKE on
success, REPLY_ERROR on vm_write failure (`vmOk` oracle). -/
def handle_poke_apple (vmOk : Bool) (mem : Mem) (s : List Nat) : HRes :=
  match recvExact 16 s with
  | (none, r) => ⟨.fail, [], r, mem⟩
  | (some hdr, s1) =>
    let address := leDecode (hdr.take 8)
    let size := leDecode (hdr.drop 8)
    match recvExact size s1 with
    | (none, r) => ⟨.fail, [], r, mem⟩
    | (some data, s2) =>
      if vmOk then ⟨.ok, frameHdr CMD_REPLY_POKE, s2, writeMem mem address data⟩
      else ⟨.ok, frameHdr CMD_REPLY_ERROR, s2, mem⟩

/-- Modelled from the spec: "POKE: Reads `size` bytes from the socket into
a transient buffer, then writes them to `address`" — the claimed behaviour
of the non-Apple handler, for comparison with `handle_poke_linux` above.
On a short read the transient buffer is discarded and memory untouched. -/
def handlePokeSpec (mem : Mem) (s : List Nat) : HRes :=
  match recvExact 16 s with
  | (none, r) => ⟨.fail, [], r, mem⟩
  | (some hdr, s1) =>
    let address := leDecode (hdr.take 8)
    let size := leDecode (hdr.drop 8)
    match recvExact size s1 with
    | (none, r) => ⟨.fail, [], r, mem⟩
    | (some data, s2) =>
      ⟨.ok, frameHdr CMD_REPLY_POKE, s2, writeMem mem address data⟩

/-- `handle_get_dummy_block`, non-Apple branch: the body is `return true;`
— nothing is sent. -/
def handle_get_dummy_block_linux (mem : Mem) (s : List Nat) : HRes :=
  ⟨.ok, [], s, mem⟩

/-- `handle_get_dummy_block`, Apple branch: sends the 8 bytes of the
global `dummy_block` pointer. -/
def handle_get_dummy_block_apple (addr : Nat) (mem : Mem) (s : List Nat) : HRes :=
  ⟨.ok, leEncode 8 addr, s, mem⟩

/-- Dispatcher outcome of one loop iteration of handle_client. -/
inductive DStep
  | disconnected (out : List Nat)
  | closed (out : List Nat)
  | ready (out : List Nat) (rest : List Nat) (mem : Mem)
  | inExec (out : List Nat)

/-- The switch of handle_client's loop on the received cmd_type `c`.  The
return value of every handler is discarded — after any handler returns,
the loop continues to the next header read (`ready`).  CMD_CLOSE goes to
the error label; every unlisted tag (including CMD_DLCLOSE) is only
logged. -/
def dispatchSwitch (env : Env) (mem : Mem) (c : Nat) (s1 : List Nat) : DStep :=
  if c = CMD_EXEC then
      let r := handle_exec env s1
      if r.stat = .stuck then .inExec r.out else .ready r.out r.rest mem
    else if c = CMD_DLOPEN then
      let r := handle_dlopen env mem s1
      .ready r.out r.rest r.mem
    else if c = CMD_DLSYM then
      let r := handle_dlsym env mem s1
      .ready r.out r.rest r.mem
    else if c = CMD_CALL then
      let r := handle_call env mem s1
      .ready r.out r.rest r.mem
    else if c = CMD_PEEK then
      let r := handle_peek mem s1
      .ready r.out r.rest r.mem
    else if c = CMD_POKE then
      let r := handle_poke_linux mem s1
      .ready r.out r.rest r.mem
    else if c = CMD_GET_DUMMY_BLOCK then
      let r := handle_get_dummy_block_linux mem s1
      .ready r.out r.rest r.mem
    else if c = CMD_CLOSE then .closed []
    else .ready [] s1 mem

/-- The body of handle_client's loop after the 8 header bytes arrived:
CHECK the magic (mismatch is fatal to the connection), then switch on the
cmd_type. -/
def dispatchCmd (env : Env) (mem : Mem) (hdr s1 : List Nat) : DStep :=
  if leDecode (hdr.take 4) ≠ MAGIC then .closed []
  else dispatchSwitch env mem (leDecode (hdr.drop 4)) s1

/-- One iteration of handle_client's loop: `recvall_ext` of the 8-byte
protocol_message_t (an empty stream is the orderly disconnect, a partial
header a hard error), then `dispatchCmd`. -/
def dispatchOne (env : Env) (mem : Mem) (s : List Nat) : DStep :=
  if s = [] then .disconnected []
  else if 8 ≤ s.length then dispatchCmd env mem (s.take 8) (s.drop 8)
  else .closed []

/-- A NUL-terminated, NUL-padded fixed-width field (`bs` must be shorter
than `n`). -/
def padField (n : Nat) (bs : List Nat) : List Nat :=
  bs ++ List.replicate (n - bs.length) 0

/-- The glibc (Linux) `struct utsname`: six consecutive 65-byte
NUL-padded fields.  This is the platform layout behind the non-Apple
build's `uname(&uname_buf)`. -/
def utsnameBytes (sysname nodename release version machine domainname : List Nat) : List Nat :=
  padField 65 sysname ++ padField 65 nodename ++ padField 65 release ++
  padField 65 version ++ padField 65 machine ++ padField 65 domainname

/-- The handshake of handle_client: the u32 SERVER_MAGIC_VERSION followed
by `sendall(sockfd, uname_buf.sysname, UNAME_VERSION_LEN)` — 256 bytes
taken from the struct starting at the sysname field. -/
def handshakeOut (uts : List Nat) : List Nat :=
  leEncode 4 SERVER_MAGIC_VERSION ++ uts.take 256

/-- Wire encoding of one length-prefixed EXEC string. -/
def encodeStr (bs : List Nat) : List Nat := leEncode 4 bs.length ++ bs

/-- Wire encoding of a list of length-prefixed EXEC strings. -/
def encodeStrs : List (List Nat) → List Nat
  | [] => []
  | a :: t => encodeStr a ++ encodeStrs t

/-- Wire encoding of a full EXEC payload: background byte, argc, argv
strings, envc, envp strings. -/
def encodeExec (bg : Nat) (argv envp : List (List Nat)) : List Nat :=
  leEncode 1 bg ++ leEncode 4 argv.length ++ encodeStrs argv ++
  leEncode 4 envp.length ++ encodeStrs envp

/-- A pump schedule on which the loop keeps running: every master read
returns data and every socket wake finds data in the stream. -/
def ActiveTrace : List Nat → List PumpEv → Prop
  | _, [] => True
  | s, .master bs :: evs => bs ≠ [] ∧ ActiveTrace s evs
  | s, .sock k :: evs =>
    ¬ min k s.length = 0 ∧ ActiveTrace (s.drop (min k s.length)) evs

/-- Socket output of an active pump schedule: one STDOUT chunk per master
read, nothing for socket forwards. -/
def pumpOutAcc : List PumpEv → List Nat
  | [] => []
  | .master bs :: evs => stdoutChunk bs ++ pumpOutAcc evs
  | .sock _ :: evs => pumpOutAcc evs

/-- Stream left over after an active pump schedule. -/
def pumpRestAcc : List Nat → List PumpEv → List Nat
  | s, [] => s
  | s, .master _ :: evs => pumpRestAcc s evs
  | s, .sock k :: evs => pumpRestAcc (s.drop (min k s.length)) evs

/-- An event that ends the pump at stream position `s`: a master read
returning 0 bytes (EOF or error) or a socket recv that returns 0 (client
closed, or recv asked for 0). -/
def isEndEv : List Nat → PumpEv → Prop
  | _, .master bs => bs = []
  | s, .sock k => min k s.length = 0

/-- All-zero memory, for concrete instances. -/
def mem0 : Mem := fun _ => 0

/-- A trivial oracle environment for concrete instances. -/
def env0 : Env where
  spawnRaw := none
  pumpEvs := []
  wait := fun _ => 0
  dlopenO := fun _ => 0
  dlsymO := fun _ => 0
  dlcloseO := fun _ => 0
  callO := fun _ _ => 0

/-- An environment whose spawn succeeds with pid 1234. -/
def env1 : Env := { env0 with spawnRaw := some 1234 }

/-- An environment for a small interactive exec: spawn succeeds with pid
7, the pump sees one 2-byte master read, one 1-byte socket forward, then
master EOF; waitpid reports status 9. -/
def env2 : Env :=
  { env0 with
    spawnRaw := some 7
    pumpEvs := [.master [104, 105], .sock 1, .master []]
    wait := fun _ => 9 }

/-! ## Helper lemmas -/

theorem take_len_append {α} (n : Nat) (a b : List α) (h : a.length = n) :
    (a ++ b).take n = a := by
  subst h
  induction a with
  | nil => simp
  | cons x t ih => simp [ih]

theorem drop_len_append {α} (n : Nat) (a b : List α) (h : a.length = n) :
    (a ++ b).drop n = b := by
  subst h
  induction a with
  | nil => simp
  | cons x t ih => simp [ih]

theorem leEncode_length (w n : Nat) : (leEncode w n).length = w := by
  induction w generalizing n with
  | zero => rfl
  | succ v ih => simp [leEncode, ih]

theorem leDecode_leEncode (w n : Nat) (h : n < 256 ^ w) :
    leDecode (leEncode w n) = n := by
  induction w generalizing n with
  | zero =>
    simp only [pow_zero, Nat.lt_one_iff] at h
    simp [h, leEncode, leDecode]
  | succ v ih =>
    have hd : n / 256 < 256 ^ v := by
      rw [Nat.div_lt_iff_lt_mul (by norm_num)]
      calc n < 256 ^ (v + 1) := h
        _ = 256 ^ v * 256 := by ring
    simp [leEncode, leDecode, ih _ hd]
    omega

theorem leEncode_inj (w m n : Nat) (hm : m < 256 ^ w) (hn : n < 256 ^ w)
    (h : leEncode w m = leEncode w n) : m = n := by
  have := congrArg leDecode h
  rwa [leDecode_leEncode w m hm, leDecode_leEncode w n hn] at this

theorem recvExact_exact (n : Nat) (bs t : List Nat) (h : bs.length = n) :
    recvExact n (bs ++ t) = (some bs, t) := by
  unfold recvExact
  rw [if_pos (by simp [← h]), take_len_append n bs t h, drop_len_append n bs t h]

theorem readStrs_encode (strs : List (List Nat)) (t : List Nat)
    (h : ∀ a ∈ strs, a.length < 2 ^ 32) :
    readStrs strs.length (encodeStrs strs ++ t) = (some strs, t) := by
  induction strs generalizing t with
  | nil => simp [readStrs, encodeStrs]
  | cons a l ih =>
    have ha : a.length < 256 ^ 4 := by
      have := h a (by simp)
      norm_num
      omega
    have hl : ∀ b ∈ l, b.length < 2 ^ 32 := fun b hb => h b (by simp [hb])
    show readStrs (l.length + 1) ((encodeStr a ++ encodeStrs l) ++ t) = _
    rw [encodeStr, List.append_assoc, List.append_assoc]
    unfold readStrs
    rw [recvExact_exact 4 (leEncode 4 a.length) _ (leEncode_length 4 _)]
    simp only [leDecode_leEncode 4 a.length ha]
    rw [recvExact_exact a.length a _ rfl]
    simp [ih t hl]

theorem internal_spawn_eq_true (o : Option Nat) (p : Nat)
    (h : internal_spawn o = (true, p)) : o = some p ∧ p ≠ INVALID_PID := by
  cases o with
  | none => simp [internal_spawn] at h
  | some q =>
    by_cases hq : q = INVALID_PID
    · simp [internal_spawn, hq] at h
    · simp only [internal_spawn, if_neg hq, Prod.mk.injEq] at h
      exact ⟨by rw [h.2], h.2 ▸ hq⟩

theorem pump_ends (status : Nat) (evs : List PumpEv) (s : List Nat)
    (e : PumpEv) (h : ActiveTrace s evs) (he : isEndEv (pumpRestAcc s evs) e) :
    pump status (evs ++ [e]) s =
      ⟨pumpOutAcc evs ++ exitChunk status, pumpRestAcc s evs, true⟩ := by
  induction evs generalizing s with
  | nil =>
    cases e with
    | master bs =>
      have hbs : bs = [] := he
      simp [pump, pumpOutAcc, pumpRestAcc, hbs]
    | sock k =>
      have hk : min k s.length = 0 := he
      simp [pump, pumpOutAcc, pumpRestAcc, hk]
  | cons f t ih =>
    cases f with
    | master bs =>
      obtain ⟨hbs, ht⟩ := h
      simp [pump, pumpOutAcc, pumpRestAcc, hbs, ih s ht he]
    | sock k =>
      obtain ⟨hk, ht⟩ := h
      have he2 : isEndEv (pumpRestAcc (s.drop (min k s.length)) t) e := he
      simp [pump, pumpOutAcc, pumpRestAcc, hk, ih _ ht he2]

theorem frameHdr_length (t : Nat) : (frameHdr t).length = 8 := by
  simp [frameHdr, leEncode_length]

theorem dispatchOne_frame (env : Env) (mem : Mem) (t : Nat) (body : List Nat) :
    dispatchOne env mem (frameHdr t ++ body) = dispatchCmd env mem (frameHdr t) body := by
  have h8 : (frameHdr t).length = 8 := frameHdr_length t
  have hne : frameHdr t ++ body ≠ [] := by
    intro h
    have := congrArg List.length h
    simp [h8] at this
  have hle : 8 ≤ (frameHdr t ++ body).length := by simp [h8]
  unfold dispatchOne
  rw [if_neg hne, if_pos hle, take_len_append 8 _ _ h8, drop_len_append 8 _ _ h8]

theorem frameHdr_take (t : Nat) : leDecode ((frameHdr t).take 4) = MAGIC := by
  rw [frameHdr, take_len_append 4 _ _ (leEncode_length 4 MAGIC),
    leDecode_leEncode 4 MAGIC (by norm_num [MAGIC])]

theorem frameHdr_drop (t : Nat) (ht : t < 2 ^ 32) :
    leDecode ((frameHdr t).drop 4) = t := by
  have h4 : (256 : ℕ) ^ 4 = 2 ^ 32 := by norm_num
  rw [frameHdr, drop_len_append 4 _ _ (leEncode_length 4 MAGIC),
    leDecode_leEncode 4 t (h4 ▸ ht)]

theorem take4_pidB (pid : Nat) (t : List Nat) :
    (leEncode 4 pid ++ t).take 4 = leEncode 4 pid :=
  take_len_append 4 _ _ (leEncode_length 4 pid)

theorem take4_pid (pid : Nat) : (leEncode 4 pid).take 4 = leEncode 4 pid := by
  conv_lhs => rw [← leEncode_length 4 pid]
  exact List.take_length _

theorem pidB_ne_sentinel (pid : Nat) (hlt : pid < 2 ^ 32) (hne : pid ≠ INVALID_PID) :
    leEncode 4 pid ≠ leEncode 4 INVALID_PID := by
  have h4 : (256 : ℕ) ^ 4 = 2 ^ 32 := by norm_num
  intro h
  exact hne (leEncode_inj 4 pid INVALID_PID (h4 ▸ hlt)
    (by rw [h4]; norm_num [INVALID_PID]) h)

theorem execParse_encode (bg : Nat) (argv envp : List (List Nat)) (t : List Nat)
    (hargv : argv ≠ []) (hla : argv.length < 2 ^ 32) (hle : envp.length < 2 ^ 32)
    (ha : ∀ a ∈ argv, a.length < 2 ^ 32) (he : ∀ a ∈ envp, a.length < 2 ^ 32)
    (hbg : bg < 256) :
    execParse (encodeExec bg argv envp ++ t) = (some bg, t) := by
  have h4 : (256 : ℕ) ^ 4 = 2 ^ 32 := by norm_num
  have hb : leEncode 1 bg = [bg % 256] := rfl
  have hbb : bg % 256 = bg := Nat.mod_eq_of_lt hbg
  unfold execParse encodeExec
  rw [hb, hbb]
  simp only [List.append_assoc]
  rw [recvExact_exact 1 [bg]
    (leEncode 4 argv.length ++ (encodeStrs argv ++ (leEncode 4 envp.length ++ (encodeStrs envp ++ t)))) rfl]
  simp only []
  rw [recvExact_exact 4 (leEncode 4 argv.length)
    (encodeStrs argv ++ (leEncode 4 envp.length ++ (encodeStrs envp ++ t))) (leEncode_length 4 _)]
  simp only [leDecode_leEncode 4 argv.length (h4 ▸ hla)]
  have hargc : ¬ argv.length = 0 := by simpa using hargv
  rw [if_neg hargc]
  rw [readStrs_encode argv (leEncode 4 envp.length ++ (encodeStrs envp ++ t)) ha]
  simp only []
  rw [recvExact_exact 4 (leEncode 4 envp.length) (encodeStrs envp ++ t) (leEncode_length 4 _)]
  simp only [leDecode_leEncode 4 envp.length (h4 ▸ hle)]
  rw [readStrs_encode envp t he]
  simp [leDecode]

theorem dispatchOne_switch (env : Env) (mem : Mem) (s : List Nat) (c : Nat)
    (h8 : 8 ≤ s.length) (hm : leDecode (s.take 4) = MAGIC)
    (hc : leDecode ((s.take 8).drop 4) = c) :
    dispatchOne env mem s = dispatchSwitch env mem c (s.drop 8) := by
  have hne : s ≠ [] := by
    intro h
    rw [h] at h8
    simp at h8
  have htt : (s.take 8).take 4 = s.take 4 := by
    rw [List.take_take]
    norm_num
  unfold dispatchOne dispatchCmd
  rw [if_neg hne, if_pos h8, htt, hm, hc]
  exact if_neg (fun h => h rfl)

theorem dispatchOne_tag (env : Env) (mem : Mem) (t : Nat) (body : List Nat)
    (ht : t < 2 ^ 32) :
    dispatchOne env mem (frameHdr t ++ body) = dispatchSwitch env mem t body := by
  rw [dispatchOne_frame]
  unfold dispatchCmd
  rw [frameHdr_take, frameHdr_drop t ht]
  exact if_neg (fun h => h rfl)

/-! ## Claim theorems -/

/-- Claim C2 counterexample: a DLCLOSE frame carrying lib = 0.  The
dispatcher falls into the unknown-command branch: no handler runs, no
uint64 reply is emitted (the output is empty) and the 8-byte payload is
left unconsumed — while the handle_dlclose function that the claim says
is routed to would have replied with 8 bytes on the same payload. -/
theorem dlclose_not_routed_cx :
    dispatchOne env0 mem0 (frameHdr CMD_DLCLOSE ++ leEncode 8 0) =
      DStep.ready [] (leEncode 8 0) mem0 ∧
    handle_dlclose env0 mem0 (leEncode 8 0) =
      ⟨HStat.ok, leEncode 8 0, [], mem0⟩ :=
  ⟨rfl, rfl⟩

/-- Claim C2 amended: the dispatcher switch has no DLCLOSE case — a
DLCLOSE frame falls into the unknown-command branch, which emits nothing,
consumes no payload, and returns to READY to read the next header; the
handle_dlclose function (read a u64 handle, invoke dlclose, reply its u64
result) exists in the source but is never dispatched. -/
theorem dlclose_not_wired (env : Env) (mem : Mem) (s : List Nat) (lib : Nat)
    (rest : List Nat) (h8 : 8 ≤ s.length) (hm : leDecode (s.take 4) = MAGIC)
    (hc : leDecode ((s.take 8).drop 4) = CMD_DLCLOSE) (hlib : lib < 2 ^ 64) :
    dispatchOne env mem s = DStep.ready [] (s.drop 8) mem ∧
    handle_dlclose env mem (leEncode 8 lib ++ rest) =
      ⟨HStat.ok, leEncode 8 (env.dlcloseO lib), rest, mem⟩ := by
  have h64 : (256 : ℕ) ^ 8 = 2 ^ 64 := by norm_num
  constructor
  · rw [dispatchOne_switch env mem s CMD_DLCLOSE h8 hm hc]
    simp [dispatchSwitch, CMD_EXEC, CMD_DLOPEN, CMD_DLCLOSE, CMD_DLSYM, CMD_CALL,
      CMD_PEEK, CMD_POKE, CMD_GET_DUMMY_BLOCK, CMD_CLOSE]
  · unfold handle_dlclose
    rw [recvExact_exact 8 (leEncode 8 lib) rest (leEncode_length 8 lib)]
    simp [leDecode_leEncode 8 lib (h64 ▸ hlib)]

/-- Claim C2 amended witness: a DLCLOSE frame with trailing payload bytes
and a direct handle_dlclose run on handle 5. -/
theorem dlclose_not_wired_w :
    dispatchOne env0 mem0 (frameHdr CMD_DLCLOSE ++ [1, 2, 3]) =
      DStep.ready [] [1, 2, 3] mem0 ∧
    handle_dlclose env0 mem0 (leEncode 8 5 ++ []) =
      ⟨HStat.ok, leEncode 8 (env0.dlcloseO 5), [], mem0⟩ :=
  dlclose_not_wired env0 mem0 (frameHdr CMD_DLCLOSE ++ [1, 2, 3]) 5 []
    (by decide) (by decide) (by decide) (by norm_num)

/-- Claim C3 counterexample: POKE of size 4 to address 100 whose stream
carries only 2 payload bytes.  Per the claim nothing may be written until
all size bytes were read into a transient buffer — but the non-Apple code
receives straight into the target, so after the failed read byte 7 is
already at address 100 (the spec-worded transient-buffer model, run on
the same input, leaves address 100 untouched). -/
theorem poke_partial_write_cx :
    (handle_poke_linux mem0 (leEncode 8 100 ++ leEncode 8 4 ++ [7, 8])).stat =
      HStat.fail ∧
    (handle_poke_linux mem0 (leEncode 8 100 ++ leEncode 8 4 ++ [7, 8])).mem 100 = 7 ∧
    (handlePokeSpec mem0 (leEncode 8 100 ++ leEncode 8 4 ++ [7, 8])).mem 100 = 0 :=
  ⟨by decide, by decide, by decide⟩

/-- Claim C3 amended: on the platform without the kernel-assisted write
the POKE payload is received directly into the target address — there is
no transient buffer, so a short payload leaves the bytes that did arrive
already written — and once the full payload has been read the write has
(unconditionally) happened and REPLY_POKE is always sent.  On the
kernel-assisted platform (Apple) the payload does go through a transient
buffer before vm_write. -/
theorem poke_direct_write (mem : Mem) (addr size : Nat) (data rest dshort : List Nat)
    (hl : data.length = size) (hshort : dshort.length < size)
    (haddr : addr < 2 ^ 64) (hsize : size < 2 ^ 64) :
    handle_poke_linux mem (leEncode 8 addr ++ leEncode 8 size ++ (data ++ rest)) =
      ⟨HStat.ok, frameHdr CMD_REPLY_POKE, rest, writeMem mem addr data⟩ ∧
    handle_poke_linux mem (leEncode 8 addr ++ leEncode 8 size ++ dshort) =
      ⟨HStat.fail, [], [], writeMem mem addr dshort⟩ ∧
    handle_poke_apple true mem (leEncode 8 addr ++ leEncode 8 size ++ (data ++ rest)) =
      ⟨HStat.ok, frameHdr CMD_REPLY_POKE, rest, writeMem mem addr data⟩ := by
  have h64 : (256 : ℕ) ^ 8 = 2 ^ 64 := by norm_num
  have h16 : (leEncode 8 addr ++ leEncode 8 size).length = 16 := by
    simp [leEncode_length]
  have htk : (leEncode 8 addr ++ leEncode 8 size).take 8 = leEncode 8 addr :=
    take_len_append 8 _ _ (leEncode_length 8 addr)
  have hdr : (leEncode 8 addr ++ leEncode 8 size).drop 8 = leEncode 8 size :=
    drop_len_append 8 _ _ (leEncode_length 8 addr)
  have hda : leDecode (leEncode 8 addr) = addr := leDecode_leEncode 8 addr (h64 ▸ haddr)
  have hds : leDecode (leEncode 8 size) = size := leDecode_leEncode 8 size (h64 ▸ hsize)
  refine ⟨?_, ?_, ?_⟩
  · unfold handle_poke_linux
    rw [recvExact_exact 16 _ (data ++ rest) h16]
    simp only [htk, hdr, hda, hds]
    rw [if_pos (by simp [← hl])]
    rw [take_len_append size data rest hl, drop_len_append size data rest hl]
  · unfold handle_poke_linux
    rw [recvExact_exact 16 _ dshort h16]
    simp only [htk, hdr, hda, hds]
    rw [if_neg (by omega)]
  · unfold handle_poke_apple
    rw [recvExact_exact 16 _ (data ++ rest) h16]
    simp only [htk, hdr, hda, hds]
    rw [recvExact_exact size data rest hl]
    simp

/-- Claim C3 amended witness: POKE of 2 bytes to address 100 (full and
short variants). -/
theorem poke_direct_write_w :
    handle_poke_linux mem0 (leEncode 8 100 ++ leEncode 8 2 ++ ([7, 8] ++ [9])) =
      ⟨HStat.ok, frameHdr CMD_REPLY_POKE, [9], writeMem mem0 100 [7, 8]⟩ ∧
    handle_poke_linux mem0 (leEncode 8 100 ++ leEncode 8 2 ++ [5]) =
      ⟨HStat.fail, [], [], writeMem mem0 100 [5]⟩ ∧
    handle_poke_apple true mem0 (leEncode 8 100 ++ leEncode 8 2 ++ ([7, 8] ++ [9])) =
      ⟨HStat.ok, frameHdr CMD_REPLY_POKE, [9], writeMem mem0 100 [7, 8]⟩ :=
  poke_direct_write mem0 100 2 [7, 8] [9] [5] (by decide) (by decide)
    (by norm_num) (by norm_num)

/-- Claim C4: CALL with argc in [0, 11] invokes the function at `address`
with the received argument words and replies its 64-bit result; for argc
outside [0, 11] the switch has no case, so no call happens and the reply
is the initial err = 0 — independent of the call oracle — but the
argc * 8 announced argv bytes are consumed, the remaining stream is
exactly the trailing bytes (the connection stays aligned) and the
dispatcher returns to READY. -/
theorem call_argc_range (env : Env) (mem : Mem) (addr argc : Nat)
    (args rest : List Nat) (hl : args.length = 8 * argc)
    (haddr : addr < 2 ^ 64) (hargc : argc < 2 ^ 64) :
    dispatchOne env mem
      (frameHdr CMD_CALL ++ (leEncode 8 addr ++ leEncode 8 argc ++ (args ++ rest))) =
      DStep.ready
        (leEncode 8 (if argc ≤ 11 then env.callO addr (toWords args) else 0))
        rest mem := by
  have h64 : (256 : ℕ) ^ 8 = 2 ^ 64 := by norm_num
  have h16 : (leEncode 8 addr ++ leEncode 8 argc).length = 16 := by
    simp [leEncode_length]
  rw [dispatchOne_tag env mem CMD_CALL _ (by norm_num [CMD_CALL])]
  have hcall : handle_call env mem
      (leEncode 8 addr ++ leEncode 8 argc ++ (args ++ rest)) =
      ⟨HStat.ok, leEncode 8 (if argc ≤ 11 then env.callO addr (toWords args) else 0),
        rest, mem⟩ := by
    unfold handle_call
    rw [recvExact_exact 16 _ (args ++ rest) h16]
    simp only [take_len_append 8 _ _ (leEncode_length 8 addr),
      drop_len_append 8 _ _ (leEncode_length 8 addr),
      leDecode_leEncode 8 addr (h64 ▸ haddr),
      leDecode_leEncode 8 argc (h64 ▸ hargc)]
    rw [recvExact_exact (8 * argc) args rest (by omega)]
  unfold dispatchSwitch
  rw [if_neg (by norm_num [CMD_CALL, CMD_EXEC]),
    if_neg (by norm_num [CMD_CALL, CMD_DLOPEN]),
    if_neg (by norm_num [CMD_CALL, CMD_DLSYM]),
    if_pos rfl, hcall]

/-- Claim C4 witness: argc = 12 (outside the range): the 96 argv bytes
are consumed, the reply is zero, the trailing byte stays for the next
header and the dispatcher is READY. -/
theorem call_argc_range_w :
    dispatchOne env0 mem0
      (frameHdr CMD_CALL ++
        (leEncode 8 9 ++ leEncode 8 12 ++ (List.replicate 96 1 ++ [77]))) =
      DStep.ready
        (leEncode 8 (if 12 ≤ 11 then env0.callO 9 (toWords (List.replicate 96 1)) else 0))
        [77] mem0 :=
  call_argc_range env0 mem0 9 12 (List.replicate 96 1) [77]
    (by simp) (by norm_num) (by norm_num)

/-- Claim C7: the 4-byte pid reply of an EXEC request (the first 4 output
bytes of handle_exec) is the sentinel 0xFFFFFFFF exactly when the handler
produced no child, and a real child pid is never 0xFFFFFFFF
(internal_spawn CHECKs the spawned pid against INVALID_PID).  `hp` says a
pid reported by posix_spawnp fits in 32 bits, as a positive pid_t does. -/
theorem exec_pid_sentinel (env : Env) (s : List Nat)
    (hp : ∀ q, env.spawnRaw = some q → q < 2 ^ 32) :
    ((handle_exec env s).out.take 4 = leEncode 4 INVALID_PID ↔
      (handle_exec env s).child = none) ∧
    (∀ q, (handle_exec env s).child = some q → q ≠ INVALID_PID) := by
  rcases hpar : execParse s with ⟨o, r⟩
  cases o with
  | none => simp [handle_exec, hpar, sentinel, take4_pid]
  | some bg =>
    rcases hsp : internal_spawn env.spawnRaw with ⟨b, pid⟩
    cases b with
    | false => simp [handle_exec, hpar, hsp, sentinel, take4_pid]
    | true =>
      obtain ⟨hsr, hnv⟩ := internal_spawn_eq_true _ _ hsp
      have hns := pidB_ne_sentinel pid (hp _ hsr) hnv
      by_cases hbg : bg = 0
      · subst hbg
        cases hend : (pump (env.wait pid) env.pumpEvs r).ended with
        | true =>
          have hout : handle_exec env s =
              ⟨.ok, leEncode 4 pid ++ (pump (env.wait pid) env.pumpEvs r).out,
                (pump (env.wait pid) env.pumpEvs r).rest, some pid⟩ := by
            unfold handle_exec
            rw [hpar, hsp]
            simp [hend]
          rw [hout]
          constructor
          · show (leEncode 4 pid ++ _).take 4 = leEncode 4 INVALID_PID ↔
              (some pid : Option Nat) = none
            rw [take4_pidB]
            exact ⟨fun h => absurd h hns, fun h => by cases h⟩
          · show ∀ q, (some pid : Option Nat) = some q → q ≠ INVALID_PID
            intro q hq
            cases hq
            exact hnv
        | false =>
          have hout : handle_exec env s =
              ⟨.stuck, leEncode 4 pid ++ (pump (env.wait pid) env.pumpEvs r).out,
                (pump (env.wait pid) env.pumpEvs r).rest, some pid⟩ := by
            unfold handle_exec
            rw [hpar, hsp]
            simp [hend]
          rw [hout]
          constructor
          · show (leEncode 4 pid ++ _).take 4 = leEncode 4 INVALID_PID ↔
              (some pid : Option Nat) = none
            rw [take4_pidB]
            exact ⟨fun h => absurd h hns, fun h => by cases h⟩
          · show ∀ q, (some pid : Option Nat) = some q → q ≠ INVALID_PID
            intro q hq
            cases hq
            exact hnv
      · have hout : handle_exec env s = ⟨.ok, leEncode 4 pid, r, some pid⟩ := by
          unfold handle_exec
          rw [hpar, hsp]
          simp [hbg]
        rw [hout]
        constructor
        · show (leEncode 4 pid).take 4 = leEncode 4 INVALID_PID ↔
            (some pid : Option Nat) = none
          rw [take4_pid]
          exact ⟨fun h => absurd h hns, fun h => by cases h⟩
        · show ∀ q, (some pid : Option Nat) = some q → q ≠ INVALID_PID
          intro q hq
          cases hq
          exact hnv

/-- Claim C7 witness: a background EXEC of one argument with spawn pid
1234. -/
theorem exec_pid_sentinel_w :
    ((handle_exec env1 (encodeExec 1 [[65]] [])).out.take 4 =
        leEncode 4 INVALID_PID ↔
      (handle_exec env1 (encodeExec 1 [[65]] [])).child = none) ∧
    (∀ q, (handle_exec env1 (encodeExec 1 [[65]] [])).child = some q →
      q ≠ INVALID_PID) :=
  exec_pid_sentinel env1 (encodeExec 1 [[65]] []) (by
    intro q h
    simp [env1, env0] at h
    omega)

/-- Claim C5: during an interactive EXEC, every pty-master read of one or
more bytes produces exactly one STDOUT exec chunk carrying exactly those
bytes (`pumpOutAcc` emits `stdoutChunk bs` per master read, whose size
field decodes to the byte count — second conjunct); when the pump ends
(final master EOF event) the child with the announced pid `p` is reaped
and a final EXITCODE chunk carrying the 4-byte waitpid status
`env.wait p` is emitted, after which the dispatcher is READY again with
the unconsumed stream. -/
theorem exec_interactive_stream (env : Env) (mem : Mem)
    (argv envp : List (List Nat)) (p : Nat) (s1 : List Nat) (evs : List PumpEv)
    (e : PumpEv)
    (hargv : argv ≠ []) (hla : argv.length < 2 ^ 32) (hle : envp.length < 2 ^ 32)
    (ha : ∀ a ∈ argv, a.length < 2 ^ 32) (he : ∀ a ∈ envp, a.length < 2 ^ 32)
    (hsp : env.spawnRaw = some p) (hpv : p ≠ INVALID_PID)
    (hevs : env.pumpEvs = evs ++ [e])
    (hact : ActiveTrace s1 evs) (hend : isEndEv (pumpRestAcc s1 evs) e) :
    dispatchOne env mem (frameHdr CMD_EXEC ++ (encodeExec 0 argv envp ++ s1)) =
      DStep.ready (leEncode 4 p ++ (pumpOutAcc evs ++ exitChunk (env.wait p)))
        (pumpRestAcc s1 evs) mem ∧
    (∀ bs : List Nat, bs.length < 2 ^ 32 →
      leDecode (((stdoutChunk bs).drop 4).take 4) = bs.length) := by
  constructor
  · rw [dispatchOne_tag env mem CMD_EXEC _ (by norm_num [CMD_EXEC])]
    have hexec : handle_exec env (encodeExec 0 argv envp ++ s1) =
        ⟨HStat.ok, leEncode 4 p ++ (pumpOutAcc evs ++ exitChunk (env.wait p)),
          pumpRestAcc s1 evs, some p⟩ := by
      unfold handle_exec
      rw [execParse_encode 0 argv envp s1 hargv hla hle ha he (by norm_num)]
      simp only []
      rw [hsp]
      simp only [internal_spawn, if_neg hpv]
      simp only [hevs, pump_ends (env.wait p) evs s1 e hact hend]
      simp
    unfold dispatchSwitch
    rw [if_pos rfl, hexec]
    simp
  · intro bs hbs
    have h4 : (256 : ℕ) ^ 4 = 2 ^ 32 := by norm_num
    unfold stdoutChunk
    rw [List.append_assoc, drop_len_append 4 _ _ (leEncode_length 4 CHUNK_STDOUT),
      take_len_append 4 _ _ (leEncode_length 4 bs.length),
      leDecode_leEncode 4 bs.length (h4 ▸ hbs)]

/-- Claim C5 witness: `argv = ["A"]`, the master delivers "hi", the
client sends one stdin byte, then master EOF; waitpid status 9. -/
theorem exec_interactive_stream_w :
    dispatchOne env2 mem0 (frameHdr CMD_EXEC ++ (encodeExec 0 [[65]] [] ++ [10])) =
      DStep.ready
        (leEncode 4 7 ++ (pumpOutAcc [PumpEv.master [104, 105], PumpEv.sock 1] ++
          exitChunk (env2.wait 7)))
        (pumpRestAcc [10] [PumpEv.master [104, 105], PumpEv.sock 1]) mem0 ∧
    (∀ bs : List Nat, bs.length < 2 ^ 32 →
      leDecode (((stdoutChunk bs).drop 4).take 4) = bs.length) :=
  exec_interactive_stream env2 mem0 [[65]] [] 7 [10]
    [PumpEv.master [104, 105], PumpEv.sock 1] (PumpEv.master [])
    (by decide) (by norm_num) (by norm_num)
    (by
      intro a h
      simp at h
      subst h
      norm_num)
    (by
      intro a h
      cases h)
    rfl (by decide) rfl
    ⟨by decide, by decide, trivial⟩ rfl

set_option maxRecDepth 8000 in
/-- Claim C6 (code-bug evidence): the handshake does emit exactly 4 + 256
bytes starting with the u32 0x88888800, but the 256 bytes are taken from
the glibc struct utsname starting at its 65-byte sysname field: with
sysname "Linux" and nodename "host", the OS name's NUL terminator is at
handshake offset 9 while offset 69 — inside the claimed NUL padding — is
104, the letter h of the nodename field. -/
theorem handshake_trailing_bytes :
    (handshakeOut (utsnameBytes [76, 105, 110, 117, 120] [104, 111, 115, 116]
        [] [] [] [])).length = 4 + 256 ∧
    (handshakeOut (utsnameBytes [76, 105, 110, 117, 120] [104, 111, 115, 116]
        [] [] [] [])).take 4 = leEncode 4 SERVER_MAGIC_VERSION ∧
    (handshakeOut (utsnameBytes [76, 105, 110, 117, 120] [104, 111, 115, 116]
        [] [] [] [])).getD 9 0 = 0 ∧
    (handshakeOut (utsnameBytes [76, 105, 110, 117, 120] [104, 111, 115, 116]
        [] [] [] [])).getD 69 0 = 104 ∧
    (104 : Nat) ≠ 0 :=
  ⟨by decide, by decide, by decide, by decide, by decide⟩

/-- Claim C8 counterexample: on the non-Apple platform GET_DUMMY_BLOCK
sends no bytes at all — the reply is empty rather than a (possibly zero)
uint64, so a client reading the claimed 8 reply bytes gets nothing. -/
theorem dummy_block_no_reply_cx :
    (handle_get_dummy_block_linux mem0 []).out = [] ∧
    dispatchOne env0 mem0 (frameHdr CMD_GET_DUMMY_BLOCK) = DStep.ready [] [] mem0 :=
  ⟨rfl, rfl⟩

/-- Claim C8 amended: GET_DUMMY_BLOCK replies with the uint64 address of
the process-resident dummy block only on the platform where blocks exist
(Apple); on the other platform the handler emits no reply bytes at all
(not a zero uint64), and the dispatcher simply returns to READY. -/
theorem dummy_block_platform_reply (env : Env) (mem : Mem) (addr : Nat)
    (s t : List Nat) (h8 : 8 ≤ t.length) (hm : leDecode (t.take 4) = MAGIC)
    (hc : leDecode ((t.take 8).drop 4) = CMD_GET_DUMMY_BLOCK) :
    handle_get_dummy_block_apple addr mem s = ⟨HStat.ok, leEncode 8 addr, s, mem⟩ ∧
    (handle_get_dummy_block_apple addr mem s).out.length = 8 ∧
    handle_get_dummy_block_linux mem s = ⟨HStat.ok, [], s, mem⟩ ∧
    dispatchOne env mem t = DStep.ready [] (t.drop 8) mem := by
  refine ⟨rfl, by simp [handle_get_dummy_block_apple, leEncode_length], rfl, ?_⟩
  rw [dispatchOne_switch env mem t CMD_GET_DUMMY_BLOCK h8 hm hc]
  simp [dispatchSwitch, CMD_EXEC, CMD_DLOPEN, CMD_DLCLOSE, CMD_DLSYM, CMD_CALL,
    CMD_PEEK, CMD_POKE, CMD_GET_DUMMY_BLOCK, CMD_CLOSE, handle_get_dummy_block_linux]

/-- Claim C8 amended witness: dummy block address 4660 on Apple, and a
GET_DUMMY_BLOCK frame with one trailing byte on the non-Apple build. -/
theorem dummy_block_platform_reply_w :
    handle_get_dummy_block_apple 4660 mem0 [1] =
      ⟨HStat.ok, leEncode 8 4660, [1], mem0⟩ ∧
    (handle_get_dummy_block_apple 4660 mem0 [1]).out.length = 8 ∧
    handle_get_dummy_block_linux mem0 [1] = ⟨HStat.ok, [], [1], mem0⟩ ∧
    dispatchOne env0 mem0 (frameHdr CMD_GET_DUMMY_BLOCK ++ [2]) =
      DStep.ready [] [2] mem0 :=
  dummy_block_platform_reply env0 mem0 4660 [1] (frameHdr CMD_GET_DUMMY_BLOCK ++ [2])
    (by decide) (by decide) (by decide)

/-- Claim C9: a received frame header whose magic differs from 0x12345678
makes the dispatcher close the connection: no handler runs and no reply
bytes are emitted for that frame. -/
theorem bad_magic_closes (env : Env) (mem : Mem) (s : List Nat)
    (h8 : 8 ≤ s.length) (hm : leDecode (s.take 4) ≠ MAGIC) :
    dispatchOne env mem s = DStep.closed [] := by
  have hne : s ≠ [] := by
    intro h
    rw [h] at h8
    simp at h8
  have htt : (s.take 8).take 4 = s.take 4 := by
    rw [List.take_take]
    norm_num
  unfold dispatchOne dispatchCmd
  rw [if_neg hne, if_pos h8, htt, if_pos hm]

/-- Claim C9 witness: scenario S6, a header with magic 0xDEADBEEF. -/
theorem bad_magic_closes_w :
    dispatchOne env0 mem0 (leEncode 4 0xDEADBEEF ++ leEncode 4 0) = DStep.closed [] :=
  bad_magic_closes env0 mem0 _ (by decide) (by decide)

/-- Claim C1 counterexample: an EXEC frame whose payload fails the
`CHECK(argc > 0)` in the middle of the payload read.  The handler fails
(`stat = fail`), yet the dispatcher iteration ends in `ready` — it
returns to read another frame header instead of transitioning to CLOSED:
handle_client discards every handler's return value. -/
theorem dispatch_fail_returns_ready_cx :
    (handle_exec env0 ([0] ++ leEncode 4 0)).stat = HStat.fail ∧
    dispatchOne env0 mem0 (frameHdr CMD_EXEC ++ ([0] ++ leEncode 4 0)) =
      DStep.ready (leEncode 4 INVALID_PID) [] mem0 :=
  ⟨by decide, rfl⟩

/-- Claim C1 amended: the dispatcher ignores handler results entirely.
For any frame whose 8-byte header is present, whose magic is good, and
whose tag is not CMD_CLOSE, dispatchOne never yields CLOSED — also when
the handler fails during its payload read; CLOSED is reached only on a
header-read failure, a bad magic, or a CMD_CLOSE frame. -/
theorem dispatch_ignores_handler_result (env : Env) (mem : Mem) (s out : List Nat)
    (h8 : 8 ≤ s.length) (hm : leDecode (s.take 4) = MAGIC)
    (hc : leDecode ((s.take 8).drop 4) ≠ CMD_CLOSE) :
    dispatchOne env mem s ≠ DStep.closed out := by
  have hne : s ≠ [] := by
    intro h
    rw [h] at h8
    simp at h8
  have htt : (s.take 8).take 4 = s.take 4 := by
    rw [List.take_take]
    norm_num
  unfold dispatchOne dispatchCmd dispatchSwitch
  rw [if_neg hne, if_pos h8, htt, hm]
  have hMAGIC : ¬ (MAGIC ≠ MAGIC) := fun h => h rfl
  rw [if_neg hMAGIC]
  dsimp only
  repeat' split
  all_goals
    intro hEq
    cases hEq

/-- Claim C1 amended witness: a GET_DUMMY_BLOCK frame. -/
theorem dispatch_ignores_handler_result_w :
    dispatchOne env0 mem0 (frameHdr CMD_GET_DUMMY_BLOCK) ≠ DStep.closed [] :=
  dispatch_ignores_handler_result env0 mem0 (frameHdr CMD_GET_DUMMY_BLOCK) []
    (by decide) (by decide) (by decide)

/-- Claim C10: an EXEC request whose argc field is 0 fails the
`CHECK(argc > 0)`: no process is spawned (`child = none`), the payload
read stops right after argc so the stream from the envc position on is
left unread (`rest`), and the 4-byte sentinel pid 0xFFFFFFFF is sent. -/
theorem exec_argc_zero (env : Env) (bg : Nat) (rest : List Nat) :
    handle_exec env ([bg] ++ leEncode 4 0 ++ rest) =
      ⟨HStat.fail, leEncode 4 INVALID_PID, rest, none⟩ := by
  have hpar : execParse ([bg] ++ leEncode 4 0 ++ rest) = (none, rest) := by
    unfold execParse
    rw [List.append_assoc, recvExact_exact 1 [bg] (leEncode 4 0 ++ rest) rfl]
    simp only []
    rw [recvExact_exact 4 (leEncode 4 0) rest (leEncode_length 4 0)]
    simp [leDecode_leEncode 4 0 (by norm_num)]
  unfold handle_exec
  rw [hpar]
  simp [sentinel]

end ZShell
